import Mathlib

/-!
Verification of the AI fashion studio core pipeline.

Shallow embedding of the core service layer of the repository
(`src/unnamed/part_003`, the canonical variant of `src/services/geminiService.ts`):

* `fileToGenerativePart` — the data-URL stripping helper,
* `isRetryableError` / `handleGeminiError` — the shared error classifier,
* `analyzeGarment` — garment analysis with exponential-back-off retries,
* `generatePhotoshoot` — the master-anchor pose-sequence generator,
* `editImage` — the single-shot refiner.

JavaScript strings are modelled as `List Char` (`JStr`).  The network is
modelled by an oracle: a list of provider results consumed one entry per
provider call, so a run of an operation is a pure function of its inputs and
the oracle.  Each run records, besides the outcome, the full trace of provider
calls (the parts lists sent) and the back-off delays requested, so that
request-shape and retry-policy properties can be stated about the trace.
-/

/-- JavaScript strings, modelled as lists of characters. -/
abbrev JStr := List Char

/-- Prefix test used to implement the JS substring test. -/
def jsStartsWith : JStr → JStr → Bool
  | _, [] => true
  | [], _ :: _ => false
  | c :: cs, p :: ps => c = p && jsStartsWith cs ps

/-- JS `String.prototype.includes`: substring (infix) test. -/
def jsIncludes : JStr → JStr → Bool
  | [], sub => jsStartsWith [] sub
  | c :: cs, sub => jsStartsWith (c :: cs) sub || jsIncludes cs sub

/-- JS `String.prototype.toLowerCase` (ASCII view, as used by the classifier). -/
def jsToLower (s : JStr) : JStr := s.map Char.toLower

/-- JS truthiness of a nullable string (as tested by `if (masterFrameB64)` and
`if (!masterFrameB64)` in `src/unnamed/part_003` lines 162, 166, 196): both
`null` and the empty string are falsy. -/
def jsTruthy : Option JStr → Bool
  | none => false
  | some s => decide (s ≠ [])

/-- JS `String.prototype.split` with a single-character separator. -/
def jsSplit (sep : Char) : JStr → List JStr
  | [] => [[]]
  | c :: cs =>
    if c = sep then [] :: jsSplit sep cs
    else
      match jsSplit sep cs with
      | [] => [[c]]
      | t :: ts => (c :: t) :: ts

/-- JS `Array.prototype.join`. -/
def jsJoin (sep : JStr) : List JStr → JStr
  | [] => []
  | [x] => x
  | x :: y :: xs => x ++ sep ++ jsJoin sep (y :: xs)

/-- JS indexing `l[n]` on an array of strings: out-of-range indexing
interpolates as `"undefined"` inside a template literal. -/
def jsIndexStr (l : List JStr) (n : Nat) : JStr := (l[n]?).getD "undefined".toList

/-- A JS `Error` object, as far as the classifier inspects it: an optional
`message` string (`error.message?` may be absent). -/
structure JsError where
  message : Option JStr
deriving DecidableEq

/-- Model of `error.message?.toLowerCase() || ""` — the lower-cased message used by both
classifier helpers in `src/unnamed/part_003`. -/
def errMsgLower (e : JsError) : JStr := ((e.message).map jsToLower).getD []

/-- Model of `isRetryableError` from `src/unnamed/part_003` lines 18–27: transient
provider-failure signatures, detected by substring. -/
def isRetryableError (e : JsError) : Bool :=
  let msg := errMsgLower e
  jsIncludes msg "503".toList ||
  jsIncludes msg "overloaded".toList ||
  jsIncludes msg "deadline".toList ||
  jsIncludes msg "resource exhausted".toList ||
  jsIncludes msg "service unavailable".toList

/-- The credential-signature test inside `handleGeminiError`
(`src/unnamed/part_003` lines 29–40). -/
def isCredentialMsg (e : JsError) : Bool :=
  let msg := errMsgLower e
  jsIncludes msg "not found".toList ||
  jsIncludes msg "404".toList ||
  jsIncludes msg "api_key".toList ||
  jsIncludes msg "invalid".toList

/-- Model of `handleGeminiError`, which always throws; this returns the error that it throws:
`Error("RESELECT_KEY")` on a credential signature, the original error
otherwise. -/
def handleGeminiError (e : JsError) : JsError :=
  if isCredentialMsg e then ⟨some "RESELECT_KEY".toList⟩ else e

/-- The `inlineData` payload of a generative part. -/
structure InlineData where
  data : JStr
  mimeType : JStr
deriving DecidableEq

/-- One element of a provider request `parts` list: either inline image data or
a text block. -/
inductive ReqPart
  | inline (d : InlineData)
  | text (t : JStr)
deriving DecidableEq

/-- Model of `fileToGenerativePart` from `src/unnamed/part_003` lines 9–14:
`base64Data.includes(",") ? base64Data.split(",")[1] : base64Data`, and
`mimeType || "image/jpeg"` (an empty MIME string is falsy). -/
def fileToGenerativePart (base64Data mimeType : JStr) : InlineData :=
  let data :=
    if jsIncludes base64Data ",".toList then
      match jsSplit ',' base64Data with
      | _ :: second :: _ => second
      | _ => base64Data
    else base64Data
  ⟨data, if mimeType = [] then "image/jpeg".toList else mimeType⟩

/-! ## JSON values and the GarmentAnalysis shape -/

/-- JSON values, as far as the analysis schema needs them: strings, arrays and
objects (ordered field lists). -/
inductive JsonVal
  | str (s : JStr)
  | arr (elems : List JsonVal)
  | obj (fields : List (JStr × JsonVal))

/-- Field lookup on a JSON object (first matching key, as in a JS object). -/
def JsonVal.getField (j : JsonVal) (k : JStr) : Option JsonVal :=
  match j with
  | .obj fs => ((fs.find? fun p => decide (p.1 = k)).map fun p => p.2)
  | _ => none

/-- View a JSON value as a string. -/
def JsonVal.asStr : JsonVal → Option JStr
  | .str s => some s
  | _ => none

/-- View a JSON value as an array of strings, element for element. -/
def JsonVal.asStrList : JsonVal → Option (List JStr)
  | .arr es => es.mapM JsonVal.asStr
  | _ => none

/-- The `GarmentAnalysis` record (`src/types.ts`).  The source type annotates
`gender` and `uniquenessLevel` with literal unions, but the analysis prompt and
schema of `src/unnamed/part_003` populate them with free text, so both are
plain strings here. -/
structure GarmentAnalysis where
  garmentType : JStr
  fabric : JStr
  colorPalette : List JStr
  style : JStr
  gender : JStr
  uniquenessLevel : JStr
deriving DecidableEq

/-- Decoding a provider JSON body into the `GarmentAnalysis` shape, following
the `responseSchema` declared in `analyzeGarment` (`src/unnamed/part_003`
lines 74–101: six required fields, `colorPalette` an array of strings). -/
def decodeGarmentAnalysis (j : JsonVal) : Option GarmentAnalysis := do
  let gt ← (j.getField "garmentType".toList).bind JsonVal.asStr
  let fb ← (j.getField "fabric".toList).bind JsonVal.asStr
  let cp ← (j.getField "colorPalette".toList).bind JsonVal.asStrList
  let st ← (j.getField "style".toList).bind JsonVal.asStr
  let gd ← (j.getField "gender".toList).bind JsonVal.asStr
  let uq ← (j.getField "uniquenessLevel".toList).bind JsonVal.asStr
  pure ⟨gt, fb, cp, st, gd, uq⟩

/-! ## analyzeGarment

The provider is an oracle: a list of per-call results.  A successful call
carries `response.text`; `none` models an absent/empty body (JS falsy, replaced
by `"{}"` before parsing), a present body either parses as a `JsonVal` or makes
`JSON.parse` throw an error with the recorded message. -/

/-- The body of a successful text-model response. -/
inductive TextBody
  | json (v : JsonVal)
  | malformed (emsg : JStr)

/-- One provider result for a text-model call. -/
inductive TextCall
  | success (text : Option TextBody)
  | failure (e : JsError)

/-- Result of a run of `analyzeGarment`: the JS value returned (the raw
`JSON.parse` result — the source applies no validation), a thrown error, or
`pending` when the oracle ran out (a model artifact, never reached by the
theorems below). -/
inductive AnalyzeOutcome
  | ok (v : JsonVal)
  | thrown (e : JsError)
  | pending

/-- A run of `analyzeGarment`: outcome, number of provider calls made, and the
back-off delays (ms) requested between attempts, in order. -/
structure AnalyzeRun where
  outcome : AnalyzeOutcome
  calls : Nat
  delays : List Nat

/-- Model of `analyzeGarment` from `src/unnamed/part_003` lines 46–114, as a function of
the oracle.  The try-block issues one provider call and returns
`JSON.parse(response.text || "{}")`; the catch-block retries (recursively, with
delay `1000 * 2 ^ retryCount`) while `isRetryableError` holds and
`retryCount < 3`, and otherwise ends in `handleGeminiError`. -/
def analyzeGarmentFrom (retryCount : Nat) (oracle : List TextCall) : AnalyzeRun :=
  match oracle with
  | [] => ⟨.pending, 0, []⟩
  | r :: rest =>
    match r with
    | .success none => ⟨.ok (JsonVal.obj []), 1, []⟩
    | .success (some (.json v)) => ⟨.ok v, 1, []⟩
    | .success (some (.malformed emsg)) =>
      let e : JsError := ⟨some emsg⟩
      if isRetryableError e && decide (retryCount < 3) then
        let run := analyzeGarmentFrom (retryCount + 1) rest
        ⟨run.outcome, run.calls + 1, 1000 * 2 ^ retryCount :: run.delays⟩
      else ⟨.thrown (handleGeminiError e), 1, []⟩
    | .failure e =>
      if isRetryableError e && decide (retryCount < 3) then
        let run := analyzeGarmentFrom (retryCount + 1) rest
        ⟨run.outcome, run.calls + 1, 1000 * 2 ^ retryCount :: run.delays⟩
      else ⟨.thrown (handleGeminiError e), 1, []⟩

/-- The `analyzeGarment` entry point (`retryCount = 0`). -/
def analyzeGarment (oracle : List TextCall) : AnalyzeRun := analyzeGarmentFrom 0 oracle

/-! ## Scenes (`src/types.ts`, `src/constants.ts`) -/

/-- The `SceneId` enum from `src/types.ts` (`none` is rendered `noScene` to
avoid clashing with `Option.none`). -/
inductive SceneId
  | studio | outdoor | beach | luxury | street | nature | auto | noScene | custom
deriving DecidableEq

/-- A scene preset: id, display name, prompt description.  The `icon` field of
the source record is a React component and is display-only, so it is omitted
from the embedding. -/
structure Scene where
  id : SceneId
  name : JStr
  description : JStr

/-- The `SCENE_PRESETS` list from `src/constants.ts`. -/
def SCENE_PRESETS : List Scene :=
  [⟨.auto, "AI Auto Scene".toList, "AI selects the best scene for the garment.".toList⟩,
   ⟨.custom, "Custom Image".toList, "Upload your own background image.".toList⟩,
   ⟨.noScene, "None".toList, "No specific scene, just a plain background.".toList⟩,
   ⟨.studio, "Studio".toList, "Clean, minimal background for e-commerce.".toList⟩,
   ⟨.outdoor, "Outdoor".toList, "Natural lighting in parks or nature trails.".toList⟩,
   ⟨.beach, "Beach".toList, "Sunny coastal vibe with sand and sea.".toList⟩,
   ⟨.luxury, "Luxury / Indoors".toList, "Opulent settings like villas or modern homes.".toList⟩,
   ⟨.street, "Street / Urban".toList, "City backgrounds with an artistic tone.".toList⟩,
   ⟨.nature, "Nature / Garden".toList, "Lush greenery, flowers, and sunlight.".toList⟩]

/-- Model of `SCENE_PRESETS.find(s => s.id === sceneId)?.description || "Professional
Studio"` (`src/unnamed/part_003` lines 128–130); an empty description string
would be falsy, hence the extra emptiness check. -/
def sceneDescriptionFor (sceneId : SceneId) : JStr :=
  match SCENE_PRESETS.find? fun s => decide (s.id = sceneId) with
  | some s => if s.description = [] then "Professional Studio".toList else s.description
  | none => "Professional Studio".toList

/-! ## generatePhotoshoot (`src/unnamed/part_003` lines 120–216)

The provider is again an oracle, one entry per image-generation call: a
successful call optionally carries the data of the first part with
`inlineData` (`none` when the response has no extractable image part), a
failed call carries the thrown error. -/

/-- One provider result for an image-model call. -/
inductive ImageCall
  | success (imageData : Option JStr)
  | failure (e : JsError)
deriving DecidableEq

/-- A generated frame (`PhotoshootImage` from `src/types.ts`).  The source id
`shot-${Date.now()}-${i}-${random}` depends on the clock and on `Math.random`;
only its deterministic component, the pose index `i`, is modelled. -/
structure PhotoshootImage where
  poseIndex : Nat
  src : JStr
deriving DecidableEq

/-- The `baseProductionRules` template literal (`src/unnamed/part_003` lines
133–141), with the template indentation normalised to single spaces. -/
def baseProductionRules (analysis : GarmentAnalysis) (modelPrompt sceneDescription : JStr) : JStr :=
  "PROFESSIONAL FASHION CAMPAIGN. GARMENT FIDELITY: Model MUST wear the EXACT ".toList
  ++ analysis.garmentType
  ++ " from the product reference. COLOR LOCK: Primary: ".toList
  ++ jsIndexStr analysis.colorPalette 0
  ++ ", Accents: ".toList
  ++ jsJoin ", ".toList (analysis.colorPalette.drop 1)
  ++ ". DETAIL LOCK: Replicate this EXACT design/embroidery: ".toList
  ++ analysis.uniquenessLevel
  ++ ". MODEL ATTRIBUTES: ".toList ++ modelPrompt
  ++ ". SCENE: ".toList ++ sceneDescription
  ++ ". TECHNICAL: 8k, photorealistic, sharp focus, high-end commercial studio lighting.".toList

/-- The per-frame instruction (`src/unnamed/part_003` lines 166–173): the
strict-consistency mandate once the master anchor is set, the
establish-identity instruction before that. -/
def frameInstruction (masterSet : Bool) (pose : JStr) : JStr :=
  if masterSet then
    ("STRICT VISUAL CONSISTENCY MANDATE: 1. CLONE THE MODEL: You MUST use the EXACT same face, "
      ++ "eyes, hair texture, and hairstyle from the second reference image. No variations allowed. "
      ++ "2. CLONE THE BACKGROUND: The background geometry, lighting direction, shadows, and "
      ++ "environment MUST be identical to the second reference image. "
      ++ "3. GARMENT PERSPECTIVE: Maintain the garment design from the first reference image, "
      ++ "but adjusted for this pose: ").toList ++ pose ++ ".".toList
  else
    ("Establish the definitive model identity and background environment. "
      ++ "The model is wearing the outfit from the first reference image. Pose: ").toList
      ++ pose ++ ".".toList

/-- The `parts` list built for one image-generation call (`src/unnamed/part_003`
lines 156–175): the garment reference always first, then — guarded by the JS
truthiness test `if (masterFrameB64)`, so only when the anchor is set AND
non-empty — the master anchor, then the instruction text. -/
def photoshootParts (garmentImage : JStr) (master : Option JStr) (promptText : JStr) :
    List ReqPart :=
  [ReqPart.inline (fileToGenerativePart garmentImage "image/jpeg".toList)]
  ++ (match master with
      | some m =>
        if m = [] then [] else [ReqPart.inline (fileToGenerativePart m "image/png".toList)]
      | none => [])
  ++ [ReqPart.text promptText]

/-- One recorded provider call of a `generatePhotoshoot` run: the pose index,
the value of `masterFrameB64` when the call was issued (model bookkeeping), and
the `parts` list sent. -/
structure GenCall where
  poseIndex : Nat
  masterAtCall : Option JStr
  parts : List ReqPart
deriving DecidableEq

/-- Outcome of a `generatePhotoshoot` run: the returned frame list, a thrown
error (the JS `throw` discards all frames accumulated so far), or `pending`
when the oracle ran out (model artifact). -/
inductive GenOutcome
  | ok (frames : List PhotoshootImage)
  | thrown (e : JsError)
  | pending
deriving DecidableEq

/-- A run of `generatePhotoshoot`: outcome, the trace of provider calls, the
requested retry delays (ms), the final value of `masterFrameB64`, and the final
value of the internal `results` accumulator (also recorded for thrown runs,
where the source discards it). -/
structure GenRun where
  outcome : GenOutcome
  callLog : List GenCall
  delays : List Nat
  master : Option JStr
  framesAcc : List PhotoshootImage
deriving DecidableEq

/-- Result of the inner `while (attempts < maxAttempts && !success)` loop of
`generatePhotoshoot` for one pose: a successful image (with the unconsumed
oracle and the trace of this frame), a rethrown error, an exhausted oracle
(model artifact), or an exit of the `while` loop without success (reachable in
the source only with `attempts ≥ maxAttempts` on entry, which the pose loop
never produces). -/
inductive FrameStep
  | got (b64 : JStr) (restOracle : List ImageCall) (calls : List GenCall) (delays : List Nat)
  | threw (e : JsError) (calls : List GenCall) (delays : List Nat)
  | ranOut (calls : List GenCall) (delays : List Nat)
  | skipped
deriving DecidableEq

/-- Record one more (earlier) call and its delays in front of a frame step. -/
def FrameStep.addCall (c : GenCall) (ds : List Nat) : FrameStep → FrameStep
  | .got b64 rest calls delays => .got b64 rest (c :: calls) (ds ++ delays)
  | .threw e calls delays => .threw e (c :: calls) (ds ++ delays)
  | .ranOut calls delays => .ranOut (c :: calls) (ds ++ delays)
  | .skipped => .skipped

/-- The calls recorded in a frame step. -/
def FrameStep.callsOf : FrameStep → List GenCall
  | .got _ _ calls _ => calls
  | .threw _ calls _ => calls
  | .ranOut calls _ => calls
  | .skipped => []

/-- The instruction text of the provider call for one pose, given the current
anchor state (`src/unnamed/part_003` lines 166–175): the source ternary
`masterFrameB64 ? ... : ...` tests JS truthiness, so an empty-string anchor
takes the establish-identity branch. -/
def framePromptText (analysis : GarmentAnalysis) (modelPrompt sceneDescription : JStr)
    (master : Option JStr) (pose : JStr) : JStr :=
  baseProductionRules analysis modelPrompt sceneDescription ++ "\n".toList
    ++ frameInstruction (jsTruthy master) pose

/-- The full recorded provider call for one pose, given the current anchor
state. -/
def frameCall (garmentImage : JStr) (analysis : GarmentAnalysis)
    (modelPrompt sceneDescription pose : JStr) (i : Nat) (master : Option JStr) : GenCall :=
  ⟨i, master,
    photoshootParts garmentImage master
      (framePromptText analysis modelPrompt sceneDescription master pose)⟩

/-- The inner attempt loop of `generatePhotoshoot` (`src/unnamed/part_003`
lines 147–213, `maxAttempts = 2`) for the pose at index `i`.  Each iteration
issues one provider call: an extracted image ends the loop successfully; a
response without an image part throws `Error("Empty image response")` into the
catch; the catch retries after a 2000 ms delay while `isRetryableError` holds
and the incremented attempt count is below `maxAttempts`, and otherwise
rethrows the error unchanged. -/
def runFrame (garmentImage : JStr) (analysis : GarmentAnalysis)
    (modelPrompt sceneDescription pose : JStr) (i : Nat) :
    Nat → Option JStr → List ImageCall → FrameStep
  | attempts, master, oracle =>
    if attempts < 2 then
      match oracle with
      | [] => .ranOut [] []
      | r :: restOracle =>
        let call : GenCall := frameCall garmentImage analysis modelPrompt sceneDescription pose i master
        match r with
        | .success (some b64) => .got b64 restOracle [call] []
        | .success none =>
          let e : JsError := ⟨some "Empty image response".toList⟩
          if isRetryableError e then
            if attempts + 1 < 2 then
              (runFrame garmentImage analysis modelPrompt sceneDescription pose i
                (attempts + 1) master restOracle).addCall call [2000]
            else .threw e [call] []
          else .threw e [call] []
        | .failure e =>
          if isRetryableError e then
            if attempts + 1 < 2 then
              (runFrame garmentImage analysis modelPrompt sceneDescription pose i
                (attempts + 1) master restOracle).addCall call [2000]
            else .threw e [call] []
          else .threw e [call] []
    else .skipped

/-- The anchor update `if (!masterFrameB64) masterFrameB64 = b64` of
`src/unnamed/part_003` line 196: the guard is JS truthiness, so the anchor is
(re)assigned not only when it is `null` but also when it holds the empty
string. -/
def anchorStep (master : Option JStr) (b64 : JStr) : Option JStr :=
  if jsTruthy master then master else some b64

/-- The pose loop of `generatePhotoshoot` (`src/unnamed/part_003` lines
146–216): for each pose run the attempt loop from `attempts = 0`; on success
push the frame onto `results` and apply the truthiness-guarded anchor update;
a rethrown error aborts the whole run (the accumulated `results` are only kept
as trace bookkeeping in `framesAcc`). -/
def runPhotoshoot (garmentImage : JStr) (analysis : GarmentAnalysis)
    (modelPrompt sceneDescription : JStr) :
    List JStr → Nat → Option JStr → List PhotoshootImage → List ImageCall → GenRun
  | [], _, master, frames, _ => ⟨.ok frames, [], [], master, frames⟩
  | pose :: restPoses, i, master, frames, oracle =>
    match runFrame garmentImage analysis modelPrompt sceneDescription pose i 0 master oracle with
    | .got b64 restOracle calls delays =>
      let frame : PhotoshootImage := ⟨i, "data:image/png;base64,".toList ++ b64⟩
      let master2 := anchorStep master b64
      let rest := runPhotoshoot garmentImage analysis modelPrompt sceneDescription
        restPoses (i + 1) master2 (frames ++ [frame]) restOracle
      ⟨rest.outcome, calls ++ rest.callLog, delays ++ rest.delays, rest.master, rest.framesAcc⟩
    | .threw e calls delays => ⟨.thrown e, calls, delays, master, frames⟩
    | .ranOut calls delays => ⟨.pending, calls, delays, master, frames⟩
    | .skipped =>
      runPhotoshoot garmentImage analysis modelPrompt sceneDescription
        restPoses (i + 1) master frames oracle

/-- The `generatePhotoshoot` entry point: scene lookup, then the pose loop from the
initial state (`masterFrameB64 = null`, empty `results`). -/
def generatePhotoshoot (garmentImage : JStr) (analysis : GarmentAnalysis) (sceneId : SceneId)
    (modelPrompt : JStr) (poses : List JStr) (oracle : List ImageCall) : GenRun :=
  runPhotoshoot garmentImage analysis modelPrompt (sceneDescriptionFor sceneId)
    poses 0 none [] oracle

/-! ## editImage (`src/unnamed/part_003` lines 218–251) -/

/-- Outcome of an `editImage` run. -/
inductive EditOutcome
  | ok (src : JStr)
  | thrown (e : JsError)
  | pending
deriving DecidableEq

/-- A run of `editImage`: outcome, number of provider calls, retry delays. -/
structure EditRun where
  outcome : EditOutcome
  calls : Nat
  delays : List Nat
deriving DecidableEq

/-- The `parts` list sent by every `editImage` call (`src/unnamed/part_003`
lines 228–233). -/
def editRequestParts (base64Image prompt : JStr) : List ReqPart :=
  [ReqPart.inline (fileToGenerativePart base64Image "image/jpeg".toList),
   ReqPart.text
     ("Refine this fashion image while strictly maintaining the garment design and model identity: ".toList
       ++ prompt)]

/-- Model of `editImage` from `src/unnamed/part_003` lines 218–251, as a function of the
oracle: one call per attempt; a response without an image part throws
`Error("Edit failed")`; the catch retries after a constant 2000 ms delay while
`isRetryableError` holds and `retryCount < 2`, and otherwise ends in
`handleGeminiError`. -/
def editImageFrom (retryCount : Nat) (oracle : List ImageCall) : EditRun :=
  match oracle with
  | [] => ⟨.pending, 0, []⟩
  | r :: rest =>
    match r with
    | .success (some b64) => ⟨.ok ("data:image/png;base64,".toList ++ b64), 1, []⟩
    | .success none =>
      let e : JsError := ⟨some "Edit failed".toList⟩
      if isRetryableError e && decide (retryCount < 2) then
        let run := editImageFrom (retryCount + 1) rest
        ⟨run.outcome, run.calls + 1, 2000 :: run.delays⟩
      else ⟨.thrown (handleGeminiError e), 1, []⟩
    | .failure e =>
      if isRetryableError e && decide (retryCount < 2) then
        let run := editImageFrom (retryCount + 1) rest
        ⟨run.outcome, run.calls + 1, 2000 :: run.delays⟩
      else ⟨.thrown (handleGeminiError e), 1, []⟩

/-- The `editImage` entry point (`retryCount = 0`). -/
def editImage (oracle : List ImageCall) : EditRun := editImageFrom 0 oracle

/-- The frames produced by an all-successes oracle: one per returned image, in
order, with consecutive pose indices starting at `i`. -/
def expectedFrames (i : Nat) : List JStr → List PhotoshootImage
  | [] => []
  | b :: bs => ⟨i, "data:image/png;base64,".toList ++ b⟩ :: expectedFrames (i + 1) bs

/-- The reference images of a recorded call: the `inlineData` parts of its
`parts` list, in order. -/
def refImages (c : GenCall) : List InlineData :=
  c.parts.filterMap fun p => match p with | .inline d => some d | .text _ => none

/-! ## Concrete fixtures for witnesses and counterexamples -/

/-- A concrete `GarmentAnalysis` fixture. -/
def sampleAnalysis : GarmentAnalysis :=
  ⟨"jacket".toList, "wool".toList, ["navy".toList, "gold".toList], "fitted".toList,
    "Female".toList, "gold button embossing".toList⟩

/-- A concrete schema-conforming provider response body. -/
def sampleResponseJson : JsonVal :=
  .obj [("garmentType".toList, .str "jacket".toList),
        ("fabric".toList, .str "wool".toList),
        ("colorPalette".toList, .arr [.str "navy".toList, .str "gold".toList]),
        ("style".toList, .str "fitted".toList),
        ("gender".toList, .str "Female".toList),
        ("uniquenessLevel".toList, .str "gold button embossing".toList)]

/-- Rendering of the words of claim C10: "only the substring after the first
comma is sent" — everything after the first comma. -/
def afterFirstComma (s : JStr) : JStr :=
  (s.dropWhile fun c => decide (c ≠ ',')).drop 1

/-! ## Trace invariants of the sequence generator -/

lemma FrameStep.callsOf_addCall (c : GenCall) (ds : List Nat) (s : FrameStep) (x : GenCall)
    (hx : x ∈ (s.addCall c ds).callsOf) : x = c ∨ x ∈ s.callsOf := by
  cases s <;> simp [addCall, callsOf] at hx ⊢ <;> tauto

lemma FrameStep.addCall_eq_skipped (c : GenCall) (ds : List Nat) (s : FrameStep) :
    s.addCall c ds = .skipped ↔ s = .skipped := by
  cases s <;> simp [addCall]

/-- Every call recorded by the attempt loop for one pose is the same request:
the anchor state does not change during a frame, so each attempt resends the
identical parts list. -/
lemma runFrame_calls (γ : JStr) (a : GarmentAnalysis) (mp sd pose : JStr) (i : Nat)
    (oracle : List ImageCall) :
    ∀ attempts master, ∀ c ∈ (runFrame γ a mp sd pose i attempts master oracle).callsOf,
      c = frameCall γ a mp sd pose i master := by
  induction oracle with
  | nil =>
    intro attempts master c hc
    simp only [runFrame] at hc
    split at hc <;> simp [FrameStep.callsOf] at hc
  | cons r rest ih =>
    intro attempts master c hc
    simp only [runFrame] at hc
    split at hc
    · match r with
      | .success (some b64) =>
        simp [FrameStep.callsOf] at hc
        exact hc
      | .success none =>
        simp only at hc
        split at hc
        · split at hc
          · rcases FrameStep.callsOf_addCall _ _ _ _ hc with h | h
            · exact h
            · exact ih _ master c h
          · simp [FrameStep.callsOf] at hc; exact hc
        · simp [FrameStep.callsOf] at hc; exact hc
      | .failure e =>
        simp only at hc
        split at hc
        · split at hc
          · rcases FrameStep.callsOf_addCall _ _ _ _ hc with h | h
            · exact h
            · exact ih _ master c h
          · simp [FrameStep.callsOf] at hc; exact hc
        · simp [FrameStep.callsOf] at hc; exact hc
    · simp [FrameStep.callsOf] at hc

/-- The attempt loop never exits without success when entered within budget. -/
lemma runFrame_ne_skipped (γ : JStr) (a : GarmentAnalysis) (mp sd pose : JStr) (i : Nat)
    (oracle : List ImageCall) :
    ∀ attempts master, attempts < 2 →
      runFrame γ a mp sd pose i attempts master oracle ≠ .skipped := by
  induction oracle with
  | nil =>
    intro attempts master h
    simp only [runFrame]
    split
    · simp
    · omega
  | cons r rest ih =>
    intro attempts master h
    simp only [runFrame]
    split
    · match r with
      | .success (some b64) => simp
      | .success none =>
        simp only
        split
        · split
          · rw [Ne, FrameStep.addCall_eq_skipped]
            exact ih _ master (by omega)
          · simp
        · simp
      | .failure e =>
        simp only
        split
        · split
          · rw [Ne, FrameStep.addCall_eq_skipped]
            exact ih _ master (by omega)
          · simp
        · simp
    · omega

/-- Once the master anchor holds non-empty (JS-truthy) bytes it never
changes: the run ends with the same anchor, every call carries it unchanged
with a pose index at or past the current one, and the accumulated frames only
grow. -/
lemma runPhotoshoot_master_truthy (γ : JStr) (a : GarmentAnalysis) (mp sd : JStr) :
    ∀ (poses : List JStr) (i : Nat) (m : JStr) (frames : List PhotoshootImage)
      (oracle : List ImageCall), m ≠ [] →
      (runPhotoshoot γ a mp sd poses i (some m) frames oracle).master = some m ∧
      (∀ c ∈ (runPhotoshoot γ a mp sd poses i (some m) frames oracle).callLog,
        c.masterAtCall = some m ∧ i ≤ c.poseIndex) ∧
      ∃ new, (runPhotoshoot γ a mp sd poses i (some m) frames oracle).framesAcc
        = frames ++ new := by
  intro poses
  induction poses with
  | nil =>
    intro i m frames oracle hm
    exact ⟨rfl, by simp [runPhotoshoot], ⟨[], by simp [runPhotoshoot]⟩⟩
  | cons pose poses ih =>
    intro i m frames oracle hm
    cases h : runFrame γ a mp sd pose i 0 (some m) oracle with
    | got b64 restOracle calls delays =>
      have hm2 : anchorStep (some m) b64 = some m := by
        simp [anchorStep, jsTruthy, hm]
      obtain ⟨ih1, ih2, new, ih3⟩ :=
        ih (i + 1) m (frames ++ [⟨i, "data:image/png;base64,".toList ++ b64⟩]) restOracle hm
      refine ⟨?_, ?_, ?_⟩
      · simp only [runPhotoshoot, h, hm2]
        exact ih1
      · simp only [runPhotoshoot, h, hm2, List.mem_append]
        rintro c (hc | hc)
        · have := runFrame_calls γ a mp sd pose i oracle 0 (some m) c (by rw [h]; exact hc)
          subst this
          exact ⟨rfl, le_refl i⟩
        · obtain ⟨h1, h2⟩ := ih2 c hc
          exact ⟨h1, by omega⟩
      · refine ⟨⟨i, "data:image/png;base64,".toList ++ b64⟩ :: new, ?_⟩
        simp only [runPhotoshoot, h, hm2]
        rw [ih3]
        simp
    | threw e calls delays =>
      refine ⟨?_, ?_, ⟨[], ?_⟩⟩
      · simp [runPhotoshoot, h]
      · simp only [runPhotoshoot, h]
        intro c hc
        have := runFrame_calls γ a mp sd pose i oracle 0 (some m) c (by rw [h]; exact hc)
        subst this
        exact ⟨rfl, le_refl i⟩
      · simp [runPhotoshoot, h]
    | ranOut calls delays =>
      refine ⟨?_, ?_, ⟨[], ?_⟩⟩
      · simp [runPhotoshoot, h]
      · simp only [runPhotoshoot, h]
        intro c hc
        have := runFrame_calls γ a mp sd pose i oracle 0 (some m) c (by rw [h]; exact hc)
        subst this
        exact ⟨rfl, le_refl i⟩
      · simp [runPhotoshoot, h]
    | skipped =>
      exact absurd h (runFrame_ne_skipped γ a mp sd pose i oracle 0 (some m) (by omega))

/-- Starting with a JS-falsy anchor (`null` or the empty string), either the
anchor never becomes truthy — every call is then unanchored and every frame
accumulated on the way has empty image bytes — or the anchor ends locked to
some non-empty bytes `m`: those are the bytes of the first accumulated frame
with non-empty bytes (all earlier new frames are empty-byte frames), every
call is either unanchored or carries exactly `m` at a strictly later pose. -/
lemma runPhotoshoot_master_falsy (γ : JStr) (a : GarmentAnalysis) (mp sd : JStr) :
    ∀ (poses : List JStr) (i : Nat) (master : Option JStr)
      (frames : List PhotoshootImage) (oracle : List ImageCall),
      jsTruthy master = false →
      ∃ new, (runPhotoshoot γ a mp sd poses i master frames oracle).framesAcc
          = frames ++ new ∧
        ((jsTruthy (runPhotoshoot γ a mp sd poses i master frames oracle).master = false ∧
          (∀ c ∈ (runPhotoshoot γ a mp sd poses i master frames oracle).callLog,
            jsTruthy c.masterAtCall = false) ∧
          (∀ f ∈ new, f.src = "data:image/png;base64,".toList)) ∨
         (∃ m, (runPhotoshoot γ a mp sd poses i master frames oracle).master = some m ∧
           m ≠ [] ∧
           (∀ c ∈ (runPhotoshoot γ a mp sd poses i master frames oracle).callLog,
             jsTruthy c.masterAtCall = false ∨
               (c.masterAtCall = some m ∧ i + 1 ≤ c.poseIndex)) ∧
           ∃ (k : Nat) (f : PhotoshootImage), new[k]? = some f ∧
             f.src = "data:image/png;base64,".toList ++ m ∧
             ∀ j, j < k → ∀ g : PhotoshootImage, new[j]? = some g →
               g.src = "data:image/png;base64,".toList)) := by
  intro poses
  induction poses with
  | nil =>
    intro i master frames oracle hfal
    exact ⟨[], by simp [runPhotoshoot], Or.inl ⟨hfal, by simp [runPhotoshoot], by simp⟩⟩
  | cons pose poses ih =>
    intro i master frames oracle hfal
    cases h : runFrame γ a mp sd pose i 0 master oracle with
    | got b64 restOracle calls delays =>
      have hm2 : anchorStep master b64 = some b64 := by
        simp [anchorStep, hfal]
      by_cases hb : b64 = []
      · subst hb
        have hfal2 : jsTruthy (some ([] : JStr)) = false := by decide
        obtain ⟨new, hacc, hdisj⟩ := ih (i + 1) (some [])
          (frames ++ [⟨i, "data:image/png;base64,".toList ++ []⟩])
          restOracle hfal2
        refine ⟨(⟨i, "data:image/png;base64,".toList ++ []⟩ : PhotoshootImage) :: new, ?_, ?_⟩
        · simp only [runPhotoshoot, h, hm2]
          rw [hacc]
          simp
        · rcases hdisj with ⟨hd1, hd2, hd3⟩ | ⟨m, hm1, hmne, hm3, k, f, hk, hsrc, hbefore⟩
          · refine Or.inl ⟨?_, ?_, ?_⟩
            · simp only [runPhotoshoot, h, hm2]
              exact hd1
            · simp only [runPhotoshoot, h, hm2, List.mem_append]
              rintro c (hc | hc)
              · have := runFrame_calls γ a mp sd pose i oracle 0 master c (by rw [h]; exact hc)
                subst this
                exact hfal
              · exact hd2 c hc
            · intro f hf
              rcases List.mem_cons.mp hf with hf | hf
              · simp [hf]
              · exact hd3 f hf
          · refine Or.inr ⟨m, ?_, hmne, ?_, k + 1, f, ?_, hsrc, ?_⟩
            · simp only [runPhotoshoot, h, hm2]
              exact hm1
            · simp only [runPhotoshoot, h, hm2, List.mem_append]
              rintro c (hc | hc)
              · have := runFrame_calls γ a mp sd pose i oracle 0 master c (by rw [h]; exact hc)
                subst this
                exact Or.inl hfal
              · rcases hm3 c hc with hc1 | ⟨hc1, hc2⟩
                · exact Or.inl hc1
                · exact Or.inr ⟨hc1, by omega⟩
            · simpa using hk
            · rintro (_ | j) hj g hg
              · simp at hg
                subst hg
                simp
              · simp only [List.getElem?_cons_succ] at hg
                exact hbefore j (by omega) g hg
      · obtain ⟨ht1, ht2, new, ht3⟩ := runPhotoshoot_master_truthy γ a mp sd poses (i + 1)
          b64 (frames ++ [⟨i, "data:image/png;base64,".toList ++ b64⟩]) restOracle hb
        refine ⟨⟨i, "data:image/png;base64,".toList ++ b64⟩ :: new, ?_,
          Or.inr ⟨b64, ?_, hb, ?_, 0, ⟨i, "data:image/png;base64,".toList ++ b64⟩,
            by simp, rfl, fun j hj => absurd hj (Nat.not_lt_zero j)⟩⟩
        · simp only [runPhotoshoot, h, hm2]
          rw [ht3]
          simp
        · simp only [runPhotoshoot, h, hm2]
          exact ht1
        · simp only [runPhotoshoot, h, hm2, List.mem_append]
          rintro c (hc | hc)
          · have := runFrame_calls γ a mp sd pose i oracle 0 master c (by rw [h]; exact hc)
            subst this
            exact Or.inl hfal
          · obtain ⟨hc1, hc2⟩ := ht2 c hc
            exact Or.inr ⟨hc1, hc2⟩
    | threw e calls delays =>
      refine ⟨[], by simp [runPhotoshoot, h], Or.inl ⟨?_, ?_, by simp⟩⟩
      · simp only [runPhotoshoot, h]
        exact hfal
      · simp only [runPhotoshoot, h]
        intro c hc
        have := runFrame_calls γ a mp sd pose i oracle 0 master c (by rw [h]; exact hc)
        subst this
        exact hfal
    | ranOut calls delays =>
      refine ⟨[], by simp [runPhotoshoot, h], Or.inl ⟨?_, ?_, by simp⟩⟩
      · simp only [runPhotoshoot, h]
        exact hfal
      · simp only [runPhotoshoot, h]
        intro c hc
        have := runFrame_calls γ a mp sd pose i oracle 0 master c (by rw [h]; exact hc)
        subst this
        exact hfal
    | skipped =>
      exact absurd h (runFrame_ne_skipped γ a mp sd pose i oracle 0 master (by omega))

/-- A run that returns (rather than throws) returns exactly its accumulated
frames: one new frame per requested pose, with consecutive pose indices. -/
lemma runPhotoshoot_ok_complete (γ : JStr) (a : GarmentAnalysis) (mp sd : JStr) :
    ∀ (poses : List JStr) (i : Nat) (master : Option JStr)
      (frames : List PhotoshootImage) (oracle : List ImageCall)
      (fs : List PhotoshootImage),
      (runPhotoshoot γ a mp sd poses i master frames oracle).outcome = .ok fs →
      fs = (runPhotoshoot γ a mp sd poses i master frames oracle).framesAcc ∧
      ∃ new, (runPhotoshoot γ a mp sd poses i master frames oracle).framesAcc
          = frames ++ new ∧
        new.length = poses.length ∧
        ∀ k f, new[k]? = some f → f.poseIndex = i + k := by
  intro poses
  induction poses with
  | nil =>
    intro i master frames oracle fs hfs
    simp only [runPhotoshoot, GenOutcome.ok.injEq] at hfs
    subst hfs
    exact ⟨rfl, [], by simp [runPhotoshoot], rfl, by simp⟩
  | cons pose poses ih =>
    intro i master frames oracle fs hfs
    cases h : runFrame γ a mp sd pose i 0 master oracle with
    | got b64 restOracle calls delays =>
      simp only [runPhotoshoot, h] at hfs ⊢
      obtain ⟨ih1, new, ih2, ih3, ih4⟩ := ih (i + 1) _ _ restOracle fs hfs
      refine ⟨ih1, ⟨i, "data:image/png;base64,".toList ++ b64⟩ :: new, ?_, by simp [ih3], ?_⟩
      · rw [ih2]
        simp
      · rintro (_ | k) f hf
        · simp at hf
          subst hf
          simp
        · simp only [List.getElem?_cons_succ] at hf
          have := ih4 k f hf
          omega
    | threw e calls delays => simp [runPhotoshoot, h] at hfs
    | ranOut calls delays => simp [runPhotoshoot, h] at hfs
    | skipped =>
      exact absurd h (runFrame_ne_skipped γ a mp sd pose i oracle 0 master (by omega))

/-- A run that throws has completed strictly fewer frames than it was asked
for (and, the outcome being an error, exposes none of them). -/
lemma runPhotoshoot_thrown_incomplete (γ : JStr) (a : GarmentAnalysis) (mp sd : JStr) :
    ∀ (poses : List JStr) (i : Nat) (master : Option JStr)
      (frames : List PhotoshootImage) (oracle : List ImageCall) (e : JsError),
      (runPhotoshoot γ a mp sd poses i master frames oracle).outcome = .thrown e →
      ∃ new, (runPhotoshoot γ a mp sd poses i master frames oracle).framesAcc
          = frames ++ new ∧
        new.length < poses.length := by
  intro poses
  induction poses with
  | nil =>
    intro i master frames oracle e he
    simp [runPhotoshoot] at he
  | cons pose poses ih =>
    intro i master frames oracle e he
    cases h : runFrame γ a mp sd pose i 0 master oracle with
    | got b64 restOracle calls delays =>
      simp only [runPhotoshoot, h] at he ⊢
      obtain ⟨new, ih1, ih2⟩ := ih (i + 1) _ _ restOracle e he
      refine ⟨⟨i, "data:image/png;base64,".toList ++ b64⟩ :: new, ?_, by simp; omega⟩
      rw [ih1]
      simp
    | threw e' calls delays =>
      simp only [runPhotoshoot, h] at he ⊢
      exact ⟨[], by simp, by simp⟩
    | ranOut calls delays => simp [runPhotoshoot, h] at he
    | skipped =>
      exact absurd h (runFrame_ne_skipped γ a mp sd pose i oracle 0 master (by omega))

lemma expectedFrames_length (i : Nat) (bs : List JStr) :
    (expectedFrames i bs).length = bs.length := by
  induction bs generalizing i with
  | nil => rfl
  | cons b bs ih => simp [expectedFrames, ih]

lemma expectedFrames_get (i : Nat) (bs : List JStr) :
    ∀ k, (expectedFrames i bs)[k]? = (bs[k]?).map
      fun b => (⟨i + k, "data:image/png;base64,".toList ++ b⟩ : PhotoshootImage) := by
  induction bs generalizing i with
  | nil => intro k; simp [expectedFrames]
  | cons b bs ih =>
    rintro (_ | k)
    · simp [expectedFrames]
    · simp only [expectedFrames, List.getElem?_cons_succ, ih (i + 1) k]
      have : i + 1 + k = i + (k + 1) := by omega
      rw [this]

/-- When every provider call succeeds on its first attempt, the run makes
exactly one call per pose, returns one frame per pose in order, requests no
delays, and ends with the anchor obtained by folding the truthiness-guarded
anchor update over the returned images. -/
lemma runPhotoshoot_all_success (γ : JStr) (a : GarmentAnalysis) (mp sd : JStr) :
    ∀ (poses bs : List JStr) (i : Nat) (master : Option JStr)
      (frames : List PhotoshootImage),
      bs.length = poses.length →
      (runPhotoshoot γ a mp sd poses i master frames
          (bs.map fun b => ImageCall.success (some b))).outcome
        = .ok (frames ++ expectedFrames i bs) ∧
      (runPhotoshoot γ a mp sd poses i master frames
          (bs.map fun b => ImageCall.success (some b))).framesAcc
        = frames ++ expectedFrames i bs ∧
      (runPhotoshoot γ a mp sd poses i master frames
          (bs.map fun b => ImageCall.success (some b))).callLog.length = poses.length ∧
      (runPhotoshoot γ a mp sd poses i master frames
          (bs.map fun b => ImageCall.success (some b))).delays = [] ∧
      (runPhotoshoot γ a mp sd poses i master frames
          (bs.map fun b => ImageCall.success (some b))).master
        = bs.foldl anchorStep master := by
  intro poses
  induction poses with
  | nil =>
    intro bs i master frames hlen
    have hbs : bs = [] := by simpa using hlen
    subst hbs
    refine ⟨?_, ?_, ?_, ?_, ?_⟩ <;> simp [runPhotoshoot, expectedFrames]
  | cons pose poses ih =>
    intro bs i master frames hlen
    cases bs with
    | nil => simp at hlen
    | cons b bs =>
      have hlen2 : bs.length = poses.length := by simpa using hlen
      have hexp : frames ++ [⟨i, "data:image/png;base64,".toList ++ b⟩]
          ++ expectedFrames (i + 1) bs = frames ++ expectedFrames i (b :: bs) := by
        simp [expectedFrames]
      have hstep : runFrame γ a mp sd pose i 0 master
          (ImageCall.success (some b) :: (bs.map fun x => ImageCall.success (some x)))
          = .got b (bs.map fun x => ImageCall.success (some x))
              [frameCall γ a mp sd pose i master] [] := by
        simp [runFrame]
      obtain ⟨ih1, ih2, ih3, ih4, ih5⟩ := ih bs (i + 1) (anchorStep master b)
        (frames ++ [⟨i, "data:image/png;base64,".toList ++ b⟩]) hlen2
      refine ⟨?_, ?_, ?_, ?_, ?_⟩ <;>
        simp only [List.map_cons, runPhotoshoot, hstep]
      · rw [ih1, hexp]
      · rw [ih2, hexp]
      · simpa using ih3
      · simpa using ih4
      · rw [ih5, List.foldl_cons]

/-- Folding the anchor update over further images never changes a truthy
anchor. -/
lemma foldl_anchorStep_truthy (bs : List JStr) :
    ∀ m, jsTruthy m = true → bs.foldl anchorStep m = m := by
  induction bs with
  | nil => intro m _; rfl
  | cons b bs ih =>
    intro m hm
    have hstep : anchorStep m b = m := by simp [anchorStep, hm]
    rw [List.foldl_cons, hstep, ih m hm]

/-- A call issued with a JS-falsy anchor (unset or empty) carries exactly one
reference image: the garment. -/
lemma refImages_frameCall_falsy (γ : JStr) (a : GarmentAnalysis) (mp sd pose : JStr)
    (i : Nat) (master : Option JStr) (hm : jsTruthy master = false) :
    refImages (frameCall γ a mp sd pose i master)
      = [fileToGenerativePart γ "image/jpeg".toList] := by
  cases master with
  | none => simp [refImages, frameCall, photoshootParts]
  | some m =>
    have hm' : m = [] := by simpa [jsTruthy] using hm
    subst hm'
    simp [refImages, frameCall, photoshootParts]

/-- A call issued with a truthy (non-empty) anchor carries exactly two
reference images: the garment first, the anchor second. -/
lemma refImages_frameCall_truthy (γ : JStr) (a : GarmentAnalysis) (mp sd pose : JStr)
    (i : Nat) (m : JStr) (hm : m ≠ []) :
    refImages (frameCall γ a mp sd pose i (some m))
      = [fileToGenerativePart γ "image/jpeg".toList,
         fileToGenerativePart m "image/png".toList] := by
  simp [refImages, frameCall, photoshootParts, hm]

/-- Every recorded call of a run is a `frameCall` for its own recorded pose
index and anchor state: the garment reference always comes first and the
anchor, exactly when set, second. -/
lemma runPhotoshoot_calls_shape (γ : JStr) (a : GarmentAnalysis) (mp sd : JStr) :
    ∀ (poses : List JStr) (i : Nat) (master : Option JStr)
      (frames : List PhotoshootImage) (oracle : List ImageCall),
      ∀ c ∈ (runPhotoshoot γ a mp sd poses i master frames oracle).callLog,
        ∃ pose, c = frameCall γ a mp sd pose c.poseIndex c.masterAtCall := by
  intro poses
  induction poses with
  | nil => intro i master frames oracle c hc; simp [runPhotoshoot] at hc
  | cons pose poses ih =>
    intro i master frames oracle c hc
    cases h : runFrame γ a mp sd pose i 0 master oracle with
    | got b64 restOracle calls delays =>
      simp only [runPhotoshoot, h, List.mem_append] at hc
      rcases hc with hc | hc
      · have := runFrame_calls γ a mp sd pose i oracle 0 master c (by rw [h]; exact hc)
        subst this
        exact ⟨pose, rfl⟩
      · exact ih _ _ _ restOracle c hc
    | threw e calls delays =>
      simp only [runPhotoshoot, h] at hc
      have := runFrame_calls γ a mp sd pose i oracle 0 master c (by rw [h]; exact hc)
      subst this
      exact ⟨pose, rfl⟩
    | ranOut calls delays =>
      simp only [runPhotoshoot, h] at hc
      have := runFrame_calls γ a mp sd pose i oracle 0 master c (by rw [h]; exact hc)
      subst this
      exact ⟨pose, rfl⟩
    | skipped =>
      exact absurd h (runFrame_ne_skipped γ a mp sd pose i oracle 0 master (by omega))

/-! ## Behavioral step lemmas for the retry policies -/

/-- A non-transient provider error on an `analyzeGarment` attempt is never
retried: one call, no delay, and the error is funnelled through
`handleGeminiError`. -/
lemma analyzeGarment_fatal_step (e : JsError) (he : isRetryableError e = false)
    (retryCount : Nat) (rest : List TextCall) :
    analyzeGarmentFrom retryCount (.failure e :: rest)
      = ⟨.thrown (handleGeminiError e), 1, []⟩ := by
  simp [analyzeGarmentFrom, he]

/-- A transient error on every attempt exhausts the `analyzeGarment` budget:
exactly 4 calls (`retryCount < 3` retries after the first call), with the
exponential delays 1000, 2000, 4000 ms, and the error then surfaces through
`handleGeminiError`. -/
lemma analyzeGarment_transient_exhaust (e : JsError) (he : isRetryableError e = true) :
    analyzeGarment [.failure e, .failure e, .failure e, .failure e]
      = ⟨.thrown (handleGeminiError e), 4, [1000, 2000, 4000]⟩ := by
  simp [analyzeGarment, analyzeGarmentFrom, he]

/-- A non-transient provider error on an `editImage` attempt is never retried:
one call, no delay, and the error is funnelled through `handleGeminiError`. -/
lemma editImage_fatal_step (e : JsError) (he : isRetryableError e = false)
    (retryCount : Nat) (rest : List ImageCall) :
    editImageFrom retryCount (.failure e :: rest)
      = ⟨.thrown (handleGeminiError e), 1, []⟩ := by
  simp [editImageFrom, he]

/-- A transient error on every attempt exhausts the `editImage` budget:
exactly 3 calls (`retryCount < 2`), with two constant 2000 ms delays. -/
lemma editImage_transient_exhaust (e : JsError) (he : isRetryableError e = true) :
    editImage [.failure e, .failure e, .failure e]
      = ⟨.thrown (handleGeminiError e), 3, [2000, 2000]⟩ := by
  simp [editImage, editImageFrom, he]

/-- A non-transient provider error in the pose loop is rethrown unchanged —
`generatePhotoshoot` never applies `handleGeminiError`, so the error is not
remapped to `RESELECT_KEY` even when it carries a credential signature. -/
lemma runPhotoshoot_fatal_step (γ : JStr) (a : GarmentAnalysis) (mp sd pose : JStr)
    (ps : List JStr) (i : Nat) (master : Option JStr) (frames : List PhotoshootImage)
    (e : JsError) (he : isRetryableError e = false) (orest : List ImageCall) :
    runPhotoshoot γ a mp sd (pose :: ps) i master frames (.failure e :: orest)
      = ⟨.thrown e, [frameCall γ a mp sd pose i master], [], master, frames⟩ := by
  have hstep : runFrame γ a mp sd pose i 0 master (.failure e :: orest)
      = .threw e [frameCall γ a mp sd pose i master] [] := by
    simp [runFrame, he]
  simp [runPhotoshoot, hstep]

/-- A transient error on both attempts of one pose exhausts that frame's
budget (`maxAttempts = 2`): two calls, one constant 2000 ms delay, and the
error is rethrown unchanged, aborting the sequence. -/
lemma runPhotoshoot_transient_exhaust (γ : JStr) (a : GarmentAnalysis) (mp sd pose : JStr)
    (ps : List JStr) (i : Nat) (master : Option JStr) (frames : List PhotoshootImage)
    (e : JsError) (he : isRetryableError e = true) (orest : List ImageCall) :
    runPhotoshoot γ a mp sd (pose :: ps) i master frames (.failure e :: .failure e :: orest)
      = ⟨.thrown e, [frameCall γ a mp sd pose i master, frameCall γ a mp sd pose i master],
          [2000], master, frames⟩ := by
  have hstep1 : runFrame γ a mp sd pose i 1 master (.failure e :: orest)
      = .threw e [frameCall γ a mp sd pose i master] [] := by
    simp [runFrame, he]
  have hstep0 : runFrame γ a mp sd pose i 0 master (.failure e :: .failure e :: orest)
      = .threw e [frameCall γ a mp sd pose i master, frameCall γ a mp sd pose i master]
          [2000] := by
    simp [runFrame, he, hstep1, FrameStep.addCall]
  simp [runPhotoshoot, hstep0]

/-- A response with no extractable image part makes the pose loop throw
`Error("Empty image response")` at once: the message matches no transient
signature, so the frame is not retried and the sequence aborts. -/
lemma runPhotoshoot_empty_image_step (γ : JStr) (a : GarmentAnalysis) (mp sd pose : JStr)
    (ps : List JStr) (i : Nat) (master : Option JStr) (frames : List PhotoshootImage)
    (orest : List ImageCall) :
    runPhotoshoot γ a mp sd (pose :: ps) i master frames (.success none :: orest)
      = ⟨.thrown ⟨some "Empty image response".toList⟩,
          [frameCall γ a mp sd pose i master], [], master, frames⟩ := by
  have hret : isRetryableError ⟨some "Empty image response".toList⟩ = false := by decide
  have hstep : runFrame γ a mp sd pose i 0 master (.success none :: orest)
      = .threw ⟨some "Empty image response".toList⟩
          [frameCall γ a mp sd pose i master] [] := by
    simp [runFrame]
    intro h
    exact absurd h (by decide)
  simp [runPhotoshoot, hstep]

/-! ## String lemmas for the data-URL helper -/

lemma jsIncludes_single_iff (c : Char) (s : JStr) : jsIncludes s [c] = true ↔ c ∈ s := by
  induction s with
  | nil => simp [jsIncludes, jsStartsWith]
  | cons x xs ih =>
    simp only [jsIncludes, jsStartsWith, Bool.or_eq_true, Bool.and_eq_true, ih,
      List.mem_cons, decide_eq_true_eq]
    constructor
    · rintro (⟨h, -⟩ | h)
      · exact Or.inl h.symm
      · exact Or.inr h
    · rintro (h | h)
      · exact Or.inl ⟨h.symm, by simp [jsStartsWith]⟩
      · exact Or.inr h

lemma jsSplit_ne_nil (sep : Char) (s : JStr) : jsSplit sep s ≠ [] := by
  induction s with
  | nil => simp [jsSplit]
  | cons c cs ih =>
    simp only [jsSplit]
    split
    · simp
    · cases h : jsSplit sep cs with
      | nil => simp
      | cons t ts => simp

lemma jsSplit_head_takeWhile (sep : Char) (s : JStr) :
    (jsSplit sep s).head? = some (s.takeWhile fun c => decide (c ≠ sep)) := by
  induction s with
  | nil => simp [jsSplit]
  | cons c cs ih =>
    simp only [jsSplit]
    by_cases h : c = sep
    · subst h
      simp [List.takeWhile]
    · rw [if_neg h]
      cases hs : jsSplit sep cs with
      | nil => exact absurd hs (jsSplit_ne_nil sep cs)
      | cons t ts =>
        rw [hs] at ih
        simp only [List.head?_cons, Option.some.injEq] at ih
        simp [List.takeWhile, h, ih]

lemma jsSplit_append_first (sep : Char) (a b : JStr) :
    sep ∉ a → jsSplit sep (a ++ sep :: b) = a :: jsSplit sep b := by
  induction a with
  | nil =>
    intro _
    simp [jsSplit]
  | cons c cs ih =>
    intro ha
    have hc : ¬ c = sep := fun h => ha (h ▸ List.mem_cons_self c cs)
    have hcs : sep ∉ cs := fun h => ha (List.mem_cons_of_mem _ h)
    simp only [List.cons_append, jsSplit, if_neg hc]
    rw [show cs.append (sep :: b) = cs ++ sep :: b from rfl, ih hcs]

/-! ## Claims -/

/-- Claim C1, counterexample: when the first frame succeeds with empty image
bytes, the truthiness-guarded update `if (!masterFrameB64)` writes the anchor
twice — first to the empty string (visible as the second call's recorded
anchor state), then to the second frame's bytes — so the anchor changes after
being set and ends different from the first emitted frame's bytes. -/
theorem c1_anchor_rewrite_counterexample :
    (generatePhotoshoot "G".toList sampleAnalysis .studio "m".toList
        ["front".toList, "side".toList]
        [.success (some []), .success (some "B".toList)]).callLog.map GenCall.masterAtCall = [none, some []] ∧
    (generatePhotoshoot "G".toList sampleAnalysis .studio "m".toList
        ["front".toList, "side".toList]
        [.success (some []), .success (some "B".toList)]).master = some "B".toList ∧
    ((generatePhotoshoot "G".toList sampleAnalysis .studio "m".toList
        ["front".toList, "side".toList]
        [.success (some []), .success (some "B".toList)]).framesAcc[0]?).map PhotoshootImage.src
      = some "data:image/png;base64,".toList ∧
    some "B".toList ≠ (some [] : Option JStr) := by
  exact ⟨by decide, by decide, by decide, by decide⟩

/-- Claim C1, amended: the anchor is (re)written by a successful frame only
while it is still JS-falsy (unset, or holding the empty string); once it holds
non-empty bytes it never changes, every call issued with a truthy anchor
carries exactly those bytes, and they are the bytes of the first accumulated
frame with non-empty bytes (every earlier frame of the run has empty bytes).
If the run ends with a falsy anchor, every call was unanchored and every
accumulated frame has empty bytes. -/
theorem c1_master_anchor_amended (γ : JStr) (a : GarmentAnalysis) (sid : SceneId)
    (mp : JStr) (poses : List JStr) (oracle : List ImageCall) :
    (jsTruthy (generatePhotoshoot γ a sid mp poses oracle).master = false →
      (∀ c ∈ (generatePhotoshoot γ a sid mp poses oracle).callLog,
        jsTruthy c.masterAtCall = false) ∧
      (∀ f ∈ (generatePhotoshoot γ a sid mp poses oracle).framesAcc,
        f.src = "data:image/png;base64,".toList)) ∧
    (∀ m, (generatePhotoshoot γ a sid mp poses oracle).master = some m → m ≠ [] →
      (∀ c ∈ (generatePhotoshoot γ a sid mp poses oracle).callLog,
        jsTruthy c.masterAtCall = false ∨ c.masterAtCall = some m) ∧
      (∃ (k : Nat) (f : PhotoshootImage),
        (generatePhotoshoot γ a sid mp poses oracle).framesAcc[k]? = some f ∧
        f.src = "data:image/png;base64,".toList ++ m ∧
        ∀ j, j < k → ∀ g : PhotoshootImage,
          (generatePhotoshoot γ a sid mp poses oracle).framesAcc[j]? = some g →
            g.src = "data:image/png;base64,".toList)) := by
  simp only [generatePhotoshoot]
  obtain ⟨new, hacc, hdisj⟩ := runPhotoshoot_master_falsy γ a mp (sceneDescriptionFor sid)
    poses 0 none [] oracle rfl
  rw [List.nil_append] at hacc
  constructor
  · intro hfal
    rcases hdisj with ⟨-, h2, h3⟩ | ⟨m, hm1, hm2, -, -⟩
    · refine ⟨h2, ?_⟩
      rw [hacc]
      exact h3
    · rw [hm1] at hfal
      simp [jsTruthy, hm2] at hfal
  · intro m hm hmne
    rcases hdisj with ⟨h1, -, -⟩ | ⟨m2, hm1, -, hm3, k, f, hk, hsrc, hbefore⟩
    · rw [hm] at h1
      simp [jsTruthy, hmne] at h1
    · rw [hm] at hm1
      injection hm1 with hm1
      subst hm1
      refine ⟨fun c hc => ?_, k, f, ?_, hsrc, ?_⟩
      · rcases hm3 c hc with h | ⟨h, -⟩
        · exact Or.inl h
        · exact Or.inr h
      · rw [hacc]
        exact hk
      · intro j hj g hg
        rw [hacc] at hg
        exact hbefore j hj g hg

/-- Claim C1, witness: in a two-pose run with non-empty payloads every
anchored call carries the first frame's bytes, which head the frame list. -/
theorem c1_master_anchor_amended_witness :
    (∀ c ∈ (generatePhotoshoot "G".toList sampleAnalysis .studio "m".toList
        ["front".toList, "side".toList]
        [.success (some "A".toList), .success (some "B".toList)]).callLog,
      jsTruthy c.masterAtCall = false ∨ c.masterAtCall = some "A".toList) ∧
    (∃ (k : Nat) (f : PhotoshootImage),
      (generatePhotoshoot "G".toList sampleAnalysis .studio "m".toList
        ["front".toList, "side".toList]
        [.success (some "A".toList), .success (some "B".toList)]).framesAcc[k]?
          = some f ∧
      f.src = "data:image/png;base64,".toList ++ "A".toList ∧
      ∀ j, j < k → ∀ g : PhotoshootImage,
        (generatePhotoshoot "G".toList sampleAnalysis .studio "m".toList
          ["front".toList, "side".toList]
          [.success (some "A".toList), .success (some "B".toList)]).framesAcc[j]?
            = some g →
          g.src = "data:image/png;base64,".toList) :=
  (c1_master_anchor_amended "G".toList sampleAnalysis .studio "m".toList
      ["front".toList, "side".toList]
      [.success (some "A".toList), .success (some "B".toList)]).2
    "A".toList (by decide) (by decide)

/-- Claim C2: a `generatePhotoshoot` run is all-or-nothing — a returned frame
list is complete (one frame per pose, in pose order), while a thrown run has
completed strictly fewer frames than requested, and its outcome carries no
frame list at all. -/
theorem c2_all_or_nothing (γ : JStr) (a : GarmentAnalysis) (sid : SceneId)
    (mp : JStr) (poses : List JStr) (oracle : List ImageCall) :
    (∀ fs, (generatePhotoshoot γ a sid mp poses oracle).outcome = .ok fs →
      fs.length = poses.length ∧
      ∀ (k : Nat) (f : PhotoshootImage), fs[k]? = some f → f.poseIndex = k) ∧
    (∀ e, (generatePhotoshoot γ a sid mp poses oracle).outcome = .thrown e →
      (generatePhotoshoot γ a sid mp poses oracle).framesAcc.length < poses.length) := by
  simp only [generatePhotoshoot]
  constructor
  · intro fs hfs
    obtain ⟨h1, new, h2, h3, h4⟩ :=
      runPhotoshoot_ok_complete γ a mp (sceneDescriptionFor sid) poses 0 none [] oracle fs hfs
    rw [List.nil_append] at h2
    rw [h1, h2]
    refine ⟨h3, fun k f hf => ?_⟩
    have := h4 k f hf
    omega
  · intro e he
    obtain ⟨new, h1, h2⟩ :=
      runPhotoshoot_thrown_incomplete γ a mp (sceneDescriptionFor sid) poses 0 none [] oracle e he
    rw [h1]
    simpa using h2

/-- Claim C2, witness: a two-pose all-success run returns a complete list. -/
theorem c2_all_or_nothing_witness :
    ([(⟨0, "data:image/png;base64,".toList ++ "A".toList⟩ : PhotoshootImage),
      ⟨1, "data:image/png;base64,".toList ++ "B".toList⟩] : List PhotoshootImage).length
      = (["front".toList, "side".toList] : List JStr).length :=
  ((c2_all_or_nothing "G".toList sampleAnalysis .studio "m".toList
      ["front".toList, "side".toList]
      [.success (some "A".toList), .success (some "B".toList)]).1
    [⟨0, "data:image/png;base64,".toList ++ "A".toList⟩,
     ⟨1, "data:image/png;base64,".toList ++ "B".toList⟩] (by decide)).1

/-- Claim C4, counterexample: when the first frame succeeds with empty image
bytes, the next call — made at pose index 1, after a frame was successfully
generated and the anchor assigned — still carries only one reference image,
because the truthiness guard `if (masterFrameB64)` skips an empty-string
anchor; "every call made after the anchor is set contains exactly two
reference images" fails. -/
theorem c4_single_reference_counterexample :
    (generatePhotoshoot "G".toList sampleAnalysis .studio "m".toList
        ["front".toList, "side".toList]
        [.success (some []), .success (some "B".toList)]).callLog.map (fun c => (refImages c).length) = [1, 1] ∧
    (generatePhotoshoot "G".toList sampleAnalysis .studio "m".toList
        ["front".toList, "side".toList]
        [.success (some []), .success (some "B".toList)]).callLog.map GenCall.poseIndex = [0, 1] ∧
    (generatePhotoshoot "G".toList sampleAnalysis .studio "m".toList
        ["front".toList, "side".toList]
        [.success (some []), .success (some "B".toList)]).framesAcc.length = 2 := by
  exact ⟨by decide, by decide, by decide⟩

/-- Claim C4, amended: every provider call carries the original garment image
as its first reference image; a call issued while the anchor is JS-falsy
(unset, or set to the empty string by a frame with empty image bytes) carries
exactly one reference image, and a call issued with a truthy anchor carries
exactly two — the garment first and the anchor second, the anchor bytes being
the run's final anchor.  Calls at pose index 0 always have a falsy anchor, and
a truthy-anchor call only occurs at pose index 1 or later. -/
theorem c4_reference_images_amended (γ : JStr) (a : GarmentAnalysis) (sid : SceneId)
    (mp : JStr) (poses : List JStr) (oracle : List ImageCall) :
    ∀ c ∈ (generatePhotoshoot γ a sid mp poses oracle).callLog,
      (refImages c).head? = some (fileToGenerativePart γ "image/jpeg".toList) ∧
      (jsTruthy c.masterAtCall = false →
        refImages c = [fileToGenerativePart γ "image/jpeg".toList]) ∧
      (∀ m, c.masterAtCall = some m → m ≠ [] →
        refImages c = [fileToGenerativePart γ "image/jpeg".toList,
          fileToGenerativePart m "image/png".toList] ∧
        1 ≤ c.poseIndex ∧
        (generatePhotoshoot γ a sid mp poses oracle).master = some m) ∧
      (c.poseIndex = 0 → jsTruthy c.masterAtCall = false) := by
  simp only [generatePhotoshoot]
  intro c hc
  obtain ⟨pose, hshape⟩ :=
    runPhotoshoot_calls_shape γ a mp (sceneDescriptionFor sid) poses 0 none [] oracle c hc
  obtain ⟨new, -, hdisj⟩ := runPhotoshoot_master_falsy γ a mp (sceneDescriptionFor sid)
    poses 0 none [] oracle rfl
  refine ⟨?_, ?_, ?_, ?_⟩
  · cases htr : jsTruthy c.masterAtCall with
    | false =>
      have hri : refImages c = [fileToGenerativePart γ "image/jpeg".toList] := by
        rw [hshape]
        exact refImages_frameCall_falsy γ a mp (sceneDescriptionFor sid) pose
          c.poseIndex c.masterAtCall htr
      rw [hri]
      rfl
    | true =>
      rcases hmac : c.masterAtCall with - | m
      · rw [hmac] at htr
        cases htr
      · have hmne : m ≠ [] := by
          rw [hmac] at htr
          simpa [jsTruthy] using htr
        have hri : refImages c = [fileToGenerativePart γ "image/jpeg".toList,
            fileToGenerativePart m "image/png".toList] := by
          rw [hshape, hmac]
          exact refImages_frameCall_truthy γ a mp (sceneDescriptionFor sid) pose
            c.poseIndex m hmne
        rw [hri]
        rfl
  · intro htr
    rw [hshape]
    exact refImages_frameCall_falsy γ a mp (sceneDescriptionFor sid) pose
      c.poseIndex c.masterAtCall htr
  · intro m hm hmne
    rcases hdisj with ⟨-, h2, -⟩ | ⟨m2, hm1, -, hm3, -⟩
    · have := h2 c hc
      rw [hm] at this
      simp [jsTruthy, hmne] at this
    · rcases hm3 c hc with hfal | ⟨hmac, hp⟩
      · rw [hm] at hfal
        simp [jsTruthy, hmne] at hfal
      · rw [hm] at hmac
        injection hmac with hmac
        subst hmac
        refine ⟨?_, by omega, hm1⟩
        rw [hshape, hm]
        exact refImages_frameCall_truthy γ a mp (sceneDescriptionFor sid) pose
          c.poseIndex m hmne
  · intro hp0
    rcases hdisj with ⟨-, h2, -⟩ | ⟨m2, -, -, hm3, -⟩
    · exact h2 c hc
    · rcases hm3 c hc with hfal | ⟨-, hp⟩
      · exact hfal
      · omega

set_option maxRecDepth 4000 in
/-- Claim C4, witness: the single call of a one-pose run has a falsy anchor
state and carries exactly the garment reference. -/
theorem c4_reference_images_amended_witness :
    refImages (frameCall "G".toList sampleAnalysis "m".toList
        (sceneDescriptionFor .studio) "p".toList 0 none)
      = [fileToGenerativePart "G".toList "image/jpeg".toList] :=
  ((c4_reference_images_amended "G".toList sampleAnalysis .studio "m".toList ["p".toList]
      [.success (some "A".toList)]
      (frameCall "G".toList sampleAnalysis "m".toList
        (sceneDescriptionFor .studio) "p".toList 0 none)
      (by decide)).2.1) (by decide)

/-- Claim C5, counterexample: with every provider call succeeding on its
first attempt but the first image empty, the final anchor holds the SECOND
frame's bytes — not the first returned frame's bytes, because the
truthiness-guarded update re-assigns an empty anchor. -/
theorem c5_empty_anchor_counterexample :
    (generatePhotoshoot "G".toList sampleAnalysis .studio "m".toList
        ["front".toList, "side".toList]
        (([([] : JStr), "B".toList]).map fun b => ImageCall.success (some b))).master
      = some "B".toList ∧
    ([([] : JStr), "B".toList]).head? = some [] ∧
    some "B".toList ≠ (some ([] : JStr)) := by
  exact ⟨by decide, by decide, by decide⟩

/-- Claim C5, amended: when every provider call succeeds on its first attempt,
`generatePhotoshoot` makes exactly one call per pose, returns one frame per
pose in pose-list order (frame `k` is built from the `k`-th returned image),
and requests no retry delays; the final anchor is the fold of the
truthiness-guarded update over the returned images — in particular it equals
the first returned image's bytes whenever those are non-empty, while an empty
first image leaves the anchor falsy, to be re-locked by a later frame. -/
theorem c5_happy_path_amended (γ : JStr) (a : GarmentAnalysis) (sid : SceneId) (mp : JStr)
    (poses bs : List JStr) (h : bs.length = poses.length) :
    (generatePhotoshoot γ a sid mp poses
        (bs.map fun b => ImageCall.success (some b))).outcome
      = .ok (expectedFrames 0 bs) ∧
    (expectedFrames 0 bs).length = poses.length ∧
    (generatePhotoshoot γ a sid mp poses
        (bs.map fun b => ImageCall.success (some b))).callLog.length = poses.length ∧
    (generatePhotoshoot γ a sid mp poses
        (bs.map fun b => ImageCall.success (some b))).delays = [] ∧
    (∀ k, (expectedFrames 0 bs)[k]?
      = (bs[k]?).map fun b =>
          (⟨k, "data:image/png;base64,".toList ++ b⟩ : PhotoshootImage)) ∧
    (generatePhotoshoot γ a sid mp poses
        (bs.map fun b => ImageCall.success (some b))).master
      = bs.foldl anchorStep none ∧
    (∀ b0 rest, bs = b0 :: rest → b0 ≠ [] →
      (generatePhotoshoot γ a sid mp poses
        (bs.map fun b => ImageCall.success (some b))).master = some b0) := by
  simp only [generatePhotoshoot]
  obtain ⟨h1, h2, h3, h4, h5⟩ :=
    runPhotoshoot_all_success γ a mp (sceneDescriptionFor sid) poses bs 0 none [] h
  refine ⟨by simpa using h1, by rw [expectedFrames_length, h], h3, h4, ?_, h5, ?_⟩
  · intro k
    simpa using expectedFrames_get 0 bs k
  · rintro b0 rest rfl hb0
    rw [h5, List.foldl_cons,
      show anchorStep none b0 = some b0 from by simp [anchorStep, jsTruthy]]
    exact foldl_anchorStep_truthy rest (some b0) (by simp [jsTruthy, hb0])

/-- Claim C5, witness: two poses, two successful non-empty responses — the
anchor ends equal to the first image's bytes. -/
theorem c5_happy_path_amended_witness :
    (generatePhotoshoot "G".toList sampleAnalysis .studio "m".toList
        ["front".toList, "side".toList]
        ((["A".toList, "B".toList] : List JStr).map
          fun b => ImageCall.success (some b))).outcome = .ok (expectedFrames 0 ["A".toList, "B".toList]) ∧
    (generatePhotoshoot "G".toList sampleAnalysis .studio "m".toList
        ["front".toList, "side".toList]
        ((["A".toList, "B".toList] : List JStr).map
          fun b => ImageCall.success (some b))).master = some "A".toList :=
  ⟨(c5_happy_path_amended "G".toList sampleAnalysis .studio "m".toList
      ["front".toList, "side".toList] ["A".toList, "B".toList] (by decide)).1,
   (c5_happy_path_amended "G".toList sampleAnalysis .studio "m".toList
      ["front".toList, "side".toList] ["A".toList, "B".toList]
      (by decide)).2.2.2.2.2.2 "A".toList ["B".toList] rfl (by decide)⟩

/-- Claim C3, counterexample: a "404" provider error — a credential signature
(`isCredentialMsg` holds) — is surfaced as `RESELECT_KEY` by `analyzeGarment`
and `editImage`, but `generatePhotoshoot` rethrows the raw error: the claimed
"applied by the analyze, generate-sequence (per-frame), and refine operations
alike" fails on the per-frame path. -/
theorem c3_reselect_key_counterexample :
    (generatePhotoshoot "G".toList sampleAnalysis .studio "m".toList ["front".toList]
        [.failure ⟨some "404".toList⟩]).outcome
      = .thrown ⟨some "404".toList⟩ ∧
    (generatePhotoshoot "G".toList sampleAnalysis .studio "m".toList ["front".toList]
        [.failure ⟨some "404".toList⟩]).outcome
      ≠ .thrown ⟨some "RESELECT_KEY".toList⟩ ∧
    isCredentialMsg ⟨some "404".toList⟩ = true ∧
    isRetryableError ⟨some "404".toList⟩ = false ∧
    (analyzeGarment [.failure ⟨some "404".toList⟩]).outcome
      = .thrown ⟨some "RESELECT_KEY".toList⟩ ∧
    (editImage [.failure ⟨some "404".toList⟩]).outcome
      = .thrown ⟨some "RESELECT_KEY".toList⟩ := by
  exact ⟨by decide, by decide, by decide, by decide, rfl, by decide⟩

/-- Claim C3, amended: the shared classifier maps overload/timeout/
resource-exhaustion/service-unavailable substrings to Transient and
"not found"/"404"/"api_key"/"invalid" substrings to InvalidCredential;
`analyzeGarment` and `editImage` surface a non-transient credential-signed
error as `RESELECT_KEY` after exactly one call attempt with no retry and
propagate every other non-transient error unchanged after one attempt, while
transient errors are retried to the attempt bound; the per-frame sequence path
shares only the transient classification — it retries transient errors but
rethrows every non-transient error unchanged, never remapping it to
`RESELECT_KEY`. -/
theorem c3_classifier_amended :
    (isRetryableError ⟨some "503".toList⟩ = true ∧
     isRetryableError ⟨some "overloaded".toList⟩ = true ∧
     isRetryableError ⟨some "deadline".toList⟩ = true ∧
     isRetryableError ⟨some "resource exhausted".toList⟩ = true ∧
     isRetryableError ⟨some "service unavailable".toList⟩ = true ∧
     isCredentialMsg ⟨some "not found".toList⟩ = true ∧
     isCredentialMsg ⟨some "404".toList⟩ = true ∧
     isCredentialMsg ⟨some "api_key".toList⟩ = true ∧
     isCredentialMsg ⟨some "invalid api key".toList⟩ = true) ∧
    (∀ e rest₁ rest₂, isRetryableError e = false → isCredentialMsg e = true →
      analyzeGarmentFrom 0 (.failure e :: rest₁)
        = ⟨.thrown ⟨some "RESELECT_KEY".toList⟩, 1, []⟩ ∧
      editImageFrom 0 (.failure e :: rest₂)
        = ⟨.thrown ⟨some "RESELECT_KEY".toList⟩, 1, []⟩) ∧
    (∀ e rest₁ rest₂, isRetryableError e = false → isCredentialMsg e = false →
      analyzeGarmentFrom 0 (.failure e :: rest₁) = ⟨.thrown e, 1, []⟩ ∧
      editImageFrom 0 (.failure e :: rest₂) = ⟨.thrown e, 1, []⟩) ∧
    (∀ e, isRetryableError e = true →
      analyzeGarment [.failure e, .failure e, .failure e, .failure e]
        = ⟨.thrown (handleGeminiError e), 4, [1000, 2000, 4000]⟩) ∧
    (∀ γ a mp sd pose ps i master frames e orest, isRetryableError e = false →
      runPhotoshoot γ a mp sd (pose :: ps) i master frames (.failure e :: orest)
        = ⟨.thrown e, [frameCall γ a mp sd pose i master], [], master, frames⟩) ∧
    (∀ γ a mp sd pose ps i master frames e orest, isRetryableError e = true →
      runPhotoshoot γ a mp sd (pose :: ps) i master frames
          (.failure e :: .failure e :: orest)
        = ⟨.thrown e, [frameCall γ a mp sd pose i master, frameCall γ a mp sd pose i master],
            [2000], master, frames⟩) := by
  refine ⟨by refine ⟨?_, ?_, ?_, ?_, ?_, ?_, ?_, ?_, ?_⟩ <;> decide, ?_, ?_, ?_, ?_, ?_⟩
  · intro e rest₁ rest₂ he hcred
    rw [analyzeGarment_fatal_step e he 0 rest₁, editImage_fatal_step e he 0 rest₂,
      handleGeminiError, if_pos hcred]
    exact ⟨rfl, rfl⟩
  · intro e rest₁ rest₂ he hcred
    rw [analyzeGarment_fatal_step e he 0 rest₁, editImage_fatal_step e he 0 rest₂,
      handleGeminiError, if_neg (by simp [hcred])]
    exact ⟨rfl, rfl⟩
  · intro e he
    exact analyzeGarment_transient_exhaust e he
  · intro γ a mp sd pose ps i master frames e orest he
    exact runPhotoshoot_fatal_step γ a mp sd pose ps i master frames e he orest
  · intro γ a mp sd pose ps i master frames e orest he
    exact runPhotoshoot_transient_exhaust γ a mp sd pose ps i master frames e he orest

/-- Claim C3, witness: the credential path at the concrete error "404". -/
theorem c3_classifier_amended_witness :
    analyzeGarmentFrom 0 [.failure ⟨some "404".toList⟩]
      = ⟨.thrown ⟨some "RESELECT_KEY".toList⟩, 1, []⟩ ∧
    editImageFrom 0 [.failure ⟨some "404".toList⟩]
      = ⟨.thrown ⟨some "RESELECT_KEY".toList⟩, 1, []⟩ :=
  c3_classifier_amended.2.1 ⟨some "404".toList⟩ [] [] (by decide) (by decide)

/-- Claim C6, counterexample: `editImage` retries a transient error with a
constant 2000 ms delay on each retry — the second delay is not the double of
the first, refuting "the base delay doubling on each successive retry attempt"
for the refine operation (the same holds for the per-frame sequence path). -/
theorem c6_backoff_counterexample :
    (editImage [.failure ⟨some "overloaded".toList⟩, .failure ⟨some "overloaded".toList⟩,
        .failure ⟨some "overloaded".toList⟩]).delays = [2000, 2000] ∧
    (editImage [.failure ⟨some "overloaded".toList⟩, .failure ⟨some "overloaded".toList⟩,
        .failure ⟨some "overloaded".toList⟩]).delays ≠ [2000, 2 * 2000] := by
  exact ⟨by decide, by decide⟩

/-- Claim C6, amended: transient errors are retried up to a bounded attempt
count in every operation, and InvalidCredential/Fatal (non-transient) errors
are never retried anywhere; but only `analyzeGarment` backs off exponentially
(1000·2ⁿ ms, n the retry index), while the per-frame sequence path and
`editImage` wait a constant 2000 ms between attempts. -/
theorem c6_retry_policy_amended :
    (∀ e, isRetryableError e = true →
      (analyzeGarment [.failure e, .failure e, .failure e, .failure e]).delays
        = [1000 * 2 ^ 0, 1000 * 2 ^ 1, 1000 * 2 ^ 2] ∧
      (analyzeGarment [.failure e, .failure e, .failure e, .failure e]).calls = 4) ∧
    (∀ e, isRetryableError e = true →
      (editImage [.failure e, .failure e, .failure e]).delays = [2000, 2000] ∧
      (editImage [.failure e, .failure e, .failure e]).calls = 3) ∧
    (∀ γ a mp sd pose ps i master frames e orest, isRetryableError e = true →
      (runPhotoshoot γ a mp sd (pose :: ps) i master frames
          (.failure e :: .failure e :: orest)).delays = [2000] ∧
      (runPhotoshoot γ a mp sd (pose :: ps) i master frames
          (.failure e :: .failure e :: orest)).callLog.length = 2) ∧
    (∀ e rest₁ rest₂, isRetryableError e = false →
      (analyzeGarmentFrom 0 (.failure e :: rest₁)).calls = 1 ∧
      (analyzeGarmentFrom 0 (.failure e :: rest₁)).delays = [] ∧
      (editImageFrom 0 (.failure e :: rest₂)).calls = 1 ∧
      (editImageFrom 0 (.failure e :: rest₂)).delays = []) ∧
    (∀ γ a mp sd pose ps i master frames e orest, isRetryableError e = false →
      (runPhotoshoot γ a mp sd (pose :: ps) i master frames
          (.failure e :: orest)).callLog.length = 1 ∧
      (runPhotoshoot γ a mp sd (pose :: ps) i master frames
          (.failure e :: orest)).delays = []) := by
  refine ⟨?_, ?_, ?_, ?_, ?_⟩
  · intro e he
    rw [analyzeGarment_transient_exhaust e he]
    exact ⟨by norm_num, rfl⟩
  · intro e he
    rw [editImage_transient_exhaust e he]
    exact ⟨rfl, rfl⟩
  · intro γ a mp sd pose ps i master frames e orest he
    rw [runPhotoshoot_transient_exhaust γ a mp sd pose ps i master frames e he orest]
    exact ⟨rfl, rfl⟩
  · intro e rest₁ rest₂ he
    rw [analyzeGarment_fatal_step e he 0 rest₁, editImage_fatal_step e he 0 rest₂]
    exact ⟨rfl, rfl, rfl, rfl⟩
  · intro γ a mp sd pose ps i master frames e orest he
    rw [runPhotoshoot_fatal_step γ a mp sd pose ps i master frames e he orest]
    exact ⟨rfl, rfl⟩

/-- Claim C6, witness: the transient-retry schedules at the concrete error
"503". -/
theorem c6_retry_policy_amended_witness :
    (analyzeGarment [.failure ⟨some "503".toList⟩, .failure ⟨some "503".toList⟩,
        .failure ⟨some "503".toList⟩, .failure ⟨some "503".toList⟩]).delays
      = [1000 * 2 ^ 0, 1000 * 2 ^ 1, 1000 * 2 ^ 2] ∧
    (analyzeGarment [.failure ⟨some "503".toList⟩, .failure ⟨some "503".toList⟩,
        .failure ⟨some "503".toList⟩, .failure ⟨some "503".toList⟩]).calls = 4 :=
  c6_retry_policy_amended.1 ⟨some "503".toList⟩ (by decide)

/-- Claim C7, counterexample: a provider response with no extractable image
part makes `generatePhotoshoot` throw `Error("Empty image response")` after a
single call — it is not retried even though the retry budget is unused and the
next oracle entry would have succeeded, refuting "treated as a retryable
(Transient) failure". -/
theorem c7_empty_image_counterexample :
    (generatePhotoshoot "G".toList sampleAnalysis .studio "m".toList ["front".toList]
        [.success none, .success (some "A".toList)]).outcome
      = .thrown ⟨some "Empty image response".toList⟩ ∧
    (generatePhotoshoot "G".toList sampleAnalysis .studio "m".toList ["front".toList]
        [.success none, .success (some "A".toList)]).callLog.length = 1 ∧
    (generatePhotoshoot "G".toList sampleAnalysis .studio "m".toList ["front".toList]
        [.success none, .success (some "A".toList)]).delays = [] ∧
    isRetryableError ⟨some "Empty image response".toList⟩ = false := by
  exact ⟨by decide, by decide, by decide, by decide⟩

/-- Claim C7, amended: a response with no extractable inline-image part makes
the frame loop throw `Error("Empty image response")` immediately — the message
matches no transient signature, so the failure does not consume the frame's
retry budget and the whole sequence aborts at once. -/
theorem c7_empty_image_amended (γ : JStr) (a : GarmentAnalysis) (mp sd pose : JStr)
    (ps : List JStr) (i : Nat) (master : Option JStr) (frames : List PhotoshootImage)
    (orest : List ImageCall) :
    runPhotoshoot γ a mp sd (pose :: ps) i master frames (.success none :: orest)
      = ⟨.thrown ⟨some "Empty image response".toList⟩,
          [frameCall γ a mp sd pose i master], [], master, frames⟩ ∧
    isRetryableError ⟨some "Empty image response".toList⟩ = false :=
  ⟨runPhotoshoot_empty_image_step γ a mp sd pose ps i master frames orest, by decide⟩

/-- Claim C8, counterexample: a malformed provider body makes `JSON.parse`
throw; the parse-error message matches no transient signature, so
`analyzeGarment` propagates it after exactly one call — the next oracle entry,
a schema-conforming response, is never consumed.  "Treated as a transient
failure eligible for retry" is refuted. -/
theorem c8_malformed_json_counterexample :
    analyzeGarment
        [.success (some (.malformed "unexpected token u in json at position 0".toList)),
         .success (some (.json sampleResponseJson))]
      = ⟨.thrown ⟨some "unexpected token u in json at position 0".toList⟩, 1, []⟩ := rfl

/-- Claim C8, amended: a malformed body raises a parse error that flows into
the same catch as provider errors; since realistic parse-error messages match
no transient signature, it propagates (through `handleGeminiError`) without
retry after one call.  Moreover an absent/empty body is replaced by `"{}"`
before parsing, so `analyzeGarment` returns the empty object — a silently
defaulted value that does not decode as a `GarmentAnalysis`. -/
theorem c8_malformed_json_amended :
    (∀ emsg rest, isRetryableError ⟨some emsg⟩ = false →
      analyzeGarmentFrom 0 (.success (some (.malformed emsg)) :: rest)
        = ⟨.thrown (handleGeminiError ⟨some emsg⟩), 1, []⟩) ∧
    (∀ rest, analyzeGarmentFrom 0 (.success none :: rest)
      = ⟨.ok (JsonVal.obj []), 1, []⟩) ∧
    decodeGarmentAnalysis (JsonVal.obj []) = none := by
  refine ⟨?_, fun rest => rfl, rfl⟩
  intro emsg rest he
  simp [analyzeGarmentFrom, he]

/-- Claim C8, witness: a concrete malformed body is propagated after one
call. -/
theorem c8_malformed_json_amended_witness :
    analyzeGarmentFrom 0 [.success (some (.malformed "unexpected end of json input".toList))]
      = ⟨.thrown (handleGeminiError ⟨some "unexpected end of json input".toList⟩), 1, []⟩ :=
  c8_malformed_json_amended.1 "unexpected end of json input".toList [] (by decide)

/-- Claim C9: `analyzeGarment` returns the parsed provider body unchanged, so
for every response conforming to the `GarmentAnalysis` schema the decoded
struct's `colorPalette` equals the provider's array element for element, in
the provider's (primary-first) order — nothing is re-sorted. -/
theorem c9_palette_roundtrip (v : JsonVal) (ga : GarmentAnalysis) (rest : List TextCall)
    (h : decodeGarmentAnalysis v = some ga) :
    (analyzeGarment (.success (some (.json v)) :: rest)).outcome = .ok v ∧
    (analyzeGarment (.success (some (.json v)) :: rest)).calls = 1 ∧
    (v.getField "colorPalette".toList).bind JsonVal.asStrList = some ga.colorPalette := by
  refine ⟨rfl, rfl, ?_⟩
  simp only [decodeGarmentAnalysis, Option.bind_eq_bind, Option.bind_eq_some,
    Option.pure_def, Option.some.injEq] at h
  obtain ⟨gt, hgt, fb, hfb, cp, hcp, st, hst, gd, hgd, uq, huq, hga⟩ := h
  subst hga
  obtain ⟨pv, hpv, hlist⟩ := hcp
  rw [hpv]
  exact hlist

/-- Claim C9, witness: the concrete schema-conforming fixture decodes with its
palette order preserved, "navy" first. -/
theorem c9_palette_roundtrip_witness :
    (analyzeGarment [.success (some (.json sampleResponseJson))]).outcome
      = .ok sampleResponseJson ∧
    (sampleResponseJson.getField "colorPalette".toList).bind JsonVal.asStrList
      = some sampleAnalysis.colorPalette :=
  ⟨(c9_palette_roundtrip sampleResponseJson sampleAnalysis [] rfl).1,
   (c9_palette_roundtrip sampleResponseJson sampleAnalysis [] rfl).2.2⟩

/-- Claim C10, counterexample: on an input with two commas, `split(",")[1]`
keeps only the segment between the first and second commas — not "the
substring after the first comma" the claim describes. -/
theorem c10_split_counterexample :
    (fileToGenerativePart "a,b,c".toList "image/jpeg".toList).data = "b".toList ∧
    afterFirstComma "a,b,c".toList = "b,c".toList ∧
    (fileToGenerativePart "a,b,c".toList "image/jpeg".toList).data
      ≠ afterFirstComma "a,b,c".toList := by
  exact ⟨by decide, by decide, by decide⟩

/-- Claim C10, amended: the helper sends a comma-free input unchanged; on an
input containing a comma it sends the second comma-separated segment — the
part strictly between the first comma and the following comma (so: everything
after the first comma only when there is exactly one comma); an empty MIME
type defaults to "image/jpeg". -/
theorem c10_strip_amended (mt : JStr) :
    (∀ s : JStr, ',' ∉ s → fileToGenerativePart s mt
      = ⟨s, if mt = [] then "image/jpeg".toList else mt⟩) ∧
    (∀ a b : JStr, ',' ∉ a → fileToGenerativePart (a ++ ',' :: b) mt
      = ⟨b.takeWhile fun c => decide (c ≠ ','),
         if mt = [] then "image/jpeg".toList else mt⟩) := by
  constructor
  · intro s hs
    have hinc : jsIncludes s [','] = false := by
      rw [← Bool.not_eq_true, jsIncludes_single_iff]
      exact hs
    simp [fileToGenerativePart, hinc]
  · intro a b ha
    have hinc : jsIncludes (a ++ ',' :: b) ",".toList = true := by
      rw [show (",".toList : JStr) = [','] from rfl, jsIncludes_single_iff]
      exact List.mem_append.mpr (Or.inr (List.mem_cons_self _ _))
    have hsplit : jsSplit ',' (a ++ ',' :: b) = a :: jsSplit ',' b :=
      jsSplit_append_first ',' a b ha
    cases hb : jsSplit ',' b with
    | nil => exact absurd hb (jsSplit_ne_nil ',' b)
    | cons t ts =>
      have ht : t = b.takeWhile fun c => decide (c ≠ ',') := by
        have h' := jsSplit_head_takeWhile ',' b
        rw [hb] at h'
        simpa using h'
      rw [hb] at hsplit
      simp only [fileToGenerativePart, hinc, hsplit]
      rw [ht]
      simp

/-- Claim C10, witness: a standard single-comma data URL is stripped to its
payload, which here coincides with the segment up to the next comma. -/
theorem c10_strip_amended_witness :
    fileToGenerativePart ("data:image/png;base64".toList ++ ',' :: "XYZ".toList)
        "image/jpeg".toList
      = ⟨("XYZ".toList).takeWhile fun c => decide (c ≠ ','),
         if ("image/jpeg".toList : JStr) = [] then "image/jpeg".toList
         else "image/jpeg".toList⟩ :=
  (c10_strip_amended "image/jpeg".toList).2 "data:image/png;base64".toList "XYZ".toList
    (by decide)


